import Mathlib

/- Shallow embedding of the function send_font_file of
   src/Tools/send_chinese_font.py (the font uploader).

   Modelling choices, stated once here:
   * The serial link is modelled by the list of results of the successive
     read calls of the session: element i is what the i-th read call
     returns, either RR.ok bytes (an empty list models a timed-out read)
     or RR.raise (the read throws a serial exception).  A read issued
     after the list is exhausted returns no bytes, as a timed-out read
     does.
   * Everything the function does to the link is recorded as a trace of
     events: opening the port, each individual write call (with the exact
     bytes passed to it), closing the port.  The fixed sleeps and the
     input/output buffer resets have no observable effect in this model
     and are dropped.
   * Bytes are naturals below 256; the little-endian encodings written by
     int.to_bytes are spelled out with explicit % and / arithmetic.
   * The try/except wrapper is modelled by letting the session body
     (trySession) return an Except value, which sendFontFile catches,
     turning every error into the boolean False, exactly as the two
     except clauses of the source do. -/

set_option maxRecDepth 100000

/-- Protocol byte CMD_START = 0xAA (send_chinese_font.py, line 21). -/
def CMD_START : Nat := 0xAA

/-- Protocol byte CMD_DATA = 0xBB (line 22). -/
def CMD_DATA : Nat := 0xBB

/-- Protocol byte CMD_END = 0xCC (line 23). -/
def CMD_END : Nat := 0xCC

/-- Protocol byte CMD_ACK = 0xDD (line 24). -/
def CMD_ACK : Nat := 0xDD

/-- Mode-select trigger byte CMD_CHINESE = ord ('C') = 0x43 (line 25). -/
def CMD_CHINESE : Nat := 0x43

/-- Fixed chunk size CHUNK_SIZE = 256 (line 26). -/
def CHUNK_SIZE : Nat := 256

/-- Events observable on the serial link: opening the port, one write call
with the bytes it was given, closing the port. -/
inductive Ev where
  | openPort : Ev
  | write : List Nat → Ev
  | closePort : Ev
  deriving DecidableEq

/-- A trace of link events. -/
abbrev Trace := List Ev

/-- Result of one read call on the link: the bytes it returned (empty for
a timeout) or a raised serial exception. -/
inductive RR where
  | ok : List Nat → RR
  | raise : RR
  deriving DecidableEq

/-- The value of file_size.to_bytes (4, 'little') for file_size below
2^32: the four little-endian base-256 digits.  The OverflowError that
to_bytes raises at 2^32 and beyond is modelled at the call site in
handshake. -/
def le4 (n : Nat) : List Nat :=
  [n % 256, n / 256 % 256, n / 65536 % 256, n / 16777216 % 256]

/-- The value of packet_size.to_bytes (2, 'little'); packet sizes are at
most 256, so no overflow is possible for this one. -/
def le2 (n : Nat) : List Nat :=
  [n % 256, n / 256 % 256]

/-- Little-endian decoding of a 4-byte field (int.from_bytes with byte
order 'little'). -/
def decodeLE4 : List Nat → Nat
  | [b0, b1, b2, b3] => b0 + 256 * b1 + 65536 * b2 + 16777216 * b3
  | _ => 0

/-- The two writes of one START attempt of the handshake loop: the START
command byte, then the 4-byte little-endian file size (lines 78-84). -/
def attemptWrites (fileSize : Nat) : Trace :=
  [Ev.write [CMD_START], Ev.write (le4 fileSize)]

/-- The three writes of one DATA chunk: the DATA command byte, the 2-byte
little-endian chunk length, then the chunk bytes (lines 116-124). -/
def chunkWrites (chunk : List Nat) : Trace :=
  [Ev.write [CMD_DATA], Ev.write (le2 chunk.length), Ev.write chunk]

/-- Step 1 of send_font_file (lines 69-102): the START handshake loop
`while retry_count < max_retries and not ack_received` with
max_retries = 50.  Each iteration writes the START byte and the 4-byte
little-endian file size (raising, like to_bytes, when the size needs more
than four bytes), then reads up to 10 bytes.  A read returning bytes that
contain CMD_ACK ends the loop successfully; bytes without CMD_ACK leave
retry_count unchanged (only a message is printed); an empty read
increments retry_count.  When the response list is exhausted every later
read returns empty, so the loop then runs exactly its remaining
50 - retry iterations and gives up: that tail is written in closed form.
Returns (outcome, remaining read results, trace of this phase); outcome
Except.ok true means ack_received, Except.ok false means the retry budget
ran out, Except.error means a raise escaped the loop. -/
def handshake (fileSize retry : Nat) (remote : List RR) :
    Except Unit Bool × List RR × Trace :=
  if retry < 50 then
    if fileSize < 4294967296 then
      match remote with
      | [] =>
          (Except.ok false, [],
            (List.replicate (50 - retry) (attemptWrites fileSize)).flatten)
      | RR.raise :: rest => (Except.error (), rest, attemptWrites fileSize)
      | RR.ok [] :: rest =>
          let r := handshake fileSize (retry + 1) rest
          (r.1, r.2.1, attemptWrites fileSize ++ r.2.2)
      | RR.ok (b :: bs) :: rest =>
          if CMD_ACK ∈ b :: bs then (Except.ok true, rest, attemptWrites fileSize)
          else
            let r := handshake fileSize retry rest
            (r.1, r.2.1, attemptWrites fileSize ++ r.2.2)
    else (Except.error (), remote, [Ev.write [CMD_START]])
  else (Except.ok false, remote, [])

/-- Step 2 of send_font_file (lines 109-135): the chunk loop
`while total_sent < file_size`.  Each iteration takes the next
CHUNK_SIZE-byte chunk of the remaining payload (f.read (CHUNK_SIZE)); an
empty chunk breaks out of the loop (which then falls through to the END
step, hence outcome Except.ok true).  Otherwise it writes the DATA byte,
the 2-byte little-endian chunk length and the chunk, then reads one byte:
a missing or different byte aborts with Except.ok false (the function
returns False there), a raise aborts with Except.error, and CMD_ACK adds
the chunk length to total_sent and continues.  Returns
(outcome, total_sent, remaining read results, trace of this phase).
The loop guard `totalSent < fileSize` is checked per case below; when the
payload is exhausted the guard makes no difference (an entered loop breaks
at once, a skipped loop never starts, both fall through to the END step
with nothing written), so that case is merged. -/
def sendData (fileSize : Nat) :
    List Nat → Nat → List RR → Except Unit Bool × Nat × List RR × Trace
  | [], totalSent, remote => (Except.ok true, totalSent, remote, [])
  | p :: ps, totalSent, [] =>
      if totalSent < fileSize then
        (Except.ok false, totalSent, [], chunkWrites ((p :: ps).take CHUNK_SIZE))
      else (Except.ok true, totalSent, [], [])
  | p :: ps, totalSent, RR.raise :: rest =>
      if totalSent < fileSize then
        (Except.error (), totalSent, rest, chunkWrites ((p :: ps).take CHUNK_SIZE))
      else (Except.ok true, totalSent, RR.raise :: rest, [])
  | p :: ps, totalSent, RR.ok a :: rest =>
      if totalSent < fileSize then
        if a.head? = some CMD_ACK then
          let r := sendData fileSize ((p :: ps).drop CHUNK_SIZE)
            (totalSent + ((p :: ps).take CHUNK_SIZE).length) rest
          (r.1, r.2.1, r.2.2.1, chunkWrites ((p :: ps).take CHUNK_SIZE) ++ r.2.2.2)
        else
          (Except.ok false, totalSent, rest, chunkWrites ((p :: ps).take CHUNK_SIZE))
      else (Except.ok true, totalSent, RR.ok a :: rest, [])

/-- The try block of send_font_file (lines 38-146).  openOk models
whether serial.Serial succeeds; when it raises, nothing was opened or
written.  Otherwise the port is opened, the trigger byte 'C' is written,
and one read of up to 4 bytes fetches the "OK" response: its bytes are
only printed, never acted on, but a raise there escapes.  Then the START
handshake runs on the remaining read results; without an ACK the port is
closed and the body yields False (Except.ok false).  With an ACK the
chunk loop runs, then on success the END byte is written and the port
closed with result True.  The Trace component is everything observed on
the link up to the return or the escape of the raise. -/
def trySession (fileSize : Nat) (payload : List Nat) (openOk : Bool)
    (remote : List RR) : Except Unit Bool × Trace :=
  if openOk then
    let t0 : Trace := [Ev.openPort, Ev.write [CMD_CHINESE]]
    match remote with
    | RR.raise :: _ => (Except.error (), t0)
    | _ =>
      let hs := handshake fileSize 0 remote.tail
      match hs.1 with
      | Except.error e => (Except.error e, t0 ++ hs.2.2)
      | Except.ok false => (Except.ok false, t0 ++ hs.2.2 ++ [Ev.closePort])
      | Except.ok true =>
        let d := sendData fileSize payload 0 hs.2.1
        match d.1 with
        | Except.error e => (Except.error e, t0 ++ hs.2.2 ++ d.2.2.2)
        | Except.ok false =>
            (Except.ok false, t0 ++ hs.2.2 ++ d.2.2.2 ++ [Ev.closePort])
        | Except.ok true =>
            (Except.ok true,
              t0 ++ hs.2.2 ++ d.2.2.2 ++ [Ev.write [CMD_END], Ev.closePort])
  else (Except.error (), [])

/-- send_font_file (lines 28-154).  The up-front existence check (lines
31-33) returns False before anything touches the link; otherwise the try
block runs and the two except clauses (lines 147-154) turn any escaped
exception into the return value False.  Returns the boolean result
together with the trace of link events of the call. -/
def sendFontFile (fileExists : Bool) (fileSize : Nat) (payload : List Nat)
    (openOk : Bool) (remote : List RR) : Bool × Trace :=
  if fileExists then
    match trySession fileSize payload openOk remote with
    | (Except.error _, tr) => (false, tr)
    | (Except.ok b, tr) => (b, tr)
  else (false, [])

/-- A read result that carries no ACK byte: either a raised exception or
bytes among which CMD_ACK does not occur. -/
def noAckResp : RR → Bool
  | RR.ok a => decide (CMD_ACK ∉ a)
  | RR.raise => true

/-- Number of START command writes (single-byte writes of CMD_START) in a
trace: the number of START attempts observable on the wire. -/
def countStarts : Trace → Nat
  | [] => 0
  | e :: t => (if e = Ev.write [CMD_START] then 1 else 0) + countStarts t

/-- Unfolding of handshake when the retry budget is exhausted. -/
theorem handshake_stop (fileSize retry : Nat) (remote : List RR)
    (h : ¬ retry < 50) :
    handshake fileSize retry remote = (Except.ok false, remote, []) := by
  rw [handshake.eq_def]
  simp [h]

/-- Unfolding of handshake when no read results remain. -/
theorem handshake_nil (fileSize retry : Nat) (h : retry < 50)
    (hL : fileSize < 4294967296) :
    handshake fileSize retry [] =
      (Except.ok false, [],
        (List.replicate (50 - retry) (attemptWrites fileSize)).flatten) := by
  simp [handshake, h, hL]

/-- Unfolding of handshake when the file size overflows four bytes. -/
theorem handshake_overflow (fileSize retry : Nat) (remote : List RR)
    (h : retry < 50) (hL : ¬ fileSize < 4294967296) :
    handshake fileSize retry remote =
      (Except.error (), remote, [Ev.write [CMD_START]]) := by
  rw [handshake.eq_def]
  simp [h, hL]

/-- Unfolding of handshake when the next read raises. -/
theorem handshake_raise (fileSize retry : Nat) (rest : List RR)
    (h : retry < 50) (hL : fileSize < 4294967296) :
    handshake fileSize retry (RR.raise :: rest) =
      (Except.error (), rest, attemptWrites fileSize) := by
  simp [handshake, h, hL]

/-- Unfolding of handshake when the next read returns no bytes: the retry
counter is incremented. -/
theorem handshake_emptyRead (fileSize retry : Nat) (rest : List RR)
    (h : retry < 50) (hL : fileSize < 4294967296) :
    handshake fileSize retry (RR.ok [] :: rest) =
      ((handshake fileSize (retry + 1) rest).1,
       (handshake fileSize (retry + 1) rest).2.1,
       attemptWrites fileSize ++ (handshake fileSize (retry + 1) rest).2.2) := by
  simp [handshake, h, hL]

/-- Unfolding of handshake when the next read contains the ACK byte. -/
theorem handshake_ack (fileSize retry b : Nat) (bs : List Nat) (rest : List RR)
    (h : retry < 50) (hL : fileSize < 4294967296) (hb : CMD_ACK ∈ b :: bs) :
    handshake fileSize retry (RR.ok (b :: bs) :: rest) =
      (Except.ok true, rest, attemptWrites fileSize) := by
  simp [handshake, h, hL, hb]

/-- Unfolding of handshake when the next read returns bytes without the
ACK byte: the retry counter is left unchanged. -/
theorem handshake_junk (fileSize retry b : Nat) (bs : List Nat) (rest : List RR)
    (h : retry < 50) (hL : fileSize < 4294967296) (hb : CMD_ACK ∉ b :: bs) :
    handshake fileSize retry (RR.ok (b :: bs) :: rest) =
      ((handshake fileSize retry rest).1,
       (handshake fileSize retry rest).2.1,
       attemptWrites fileSize ++ (handshake fileSize retry rest).2.2) := by
  simp [handshake, h, hL, hb]

/-- countStarts distributes over concatenation. -/
theorem countStarts_append (a b : Trace) :
    countStarts (a ++ b) = countStarts a + countStarts b := by
  induction a with
  | nil => simp [countStarts]
  | cons e t ih => simp [countStarts, ih]; omega

/-- The 4-byte length field is never a single byte. -/
theorem le4_ne_single (fileSize x : Nat) : le4 fileSize ≠ [x] := by
  simp [le4]

/-- One START attempt contains exactly one START command write. -/
theorem countStarts_attempt (fileSize : Nat) :
    countStarts (attemptWrites fileSize) = 1 := by
  simp [countStarts, attemptWrites, le4_ne_single]

/-- Counting START command writes over n repeated attempts. -/
theorem countStarts_flattenRep (n fileSize : Nat) :
    countStarts (List.replicate n (attemptWrites fileSize)).flatten = n := by
  induction n with
  | zero => simp [countStarts]
  | succ k ih =>
      simp [List.replicate_succ, List.flatten_cons, countStarts_append, ih,
            countStarts_attempt, Nat.add_comm]

/-- Every write of the handshake phase is either the START byte or the
4-byte length field. -/
theorem handshake_events (fileSize : Nat) :
    ∀ (remote : List RR) (retry : Nat) (e : Ev),
      e ∈ (handshake fileSize retry remote).2.2 →
      e = Ev.write [CMD_START] ∨ e = Ev.write (le4 fileSize) := by
  intro remote
  induction remote with
  | nil =>
      intro retry e he
      by_cases h : retry < 50
      · by_cases hL : fileSize < 4294967296
        · rw [handshake_nil _ _ h hL] at he
          obtain ⟨l, hl, hel⟩ := List.mem_flatten.mp he
          have := List.eq_of_mem_replicate hl
          subst this
          simpa [attemptWrites] using hel
        · rw [handshake_overflow _ _ _ h hL] at he
          simpa using Or.inl (List.mem_singleton.mp he)
      · rw [handshake_stop _ _ _ h] at he
        simp at he
  | cons r rest ih =>
      intro retry e he
      by_cases h : retry < 50
      · by_cases hL : fileSize < 4294967296
        · match r with
          | RR.raise =>
              rw [handshake_raise _ _ _ h hL] at he
              simpa [attemptWrites] using he
          | RR.ok [] =>
              rw [handshake_emptyRead _ _ _ h hL] at he
              rcases List.mem_append.mp he with hx | hx
              · simpa [attemptWrites] using hx
              · exact ih (retry + 1) e hx
          | RR.ok (b :: bs) =>
              by_cases hb : CMD_ACK ∈ b :: bs
              · rw [handshake_ack _ _ _ _ _ h hL hb] at he
                simpa [attemptWrites] using he
              · rw [handshake_junk _ _ _ _ _ h hL hb] at he
                rcases List.mem_append.mp he with hx | hx
                · simpa [attemptWrites] using hx
                · exact ih retry e hx
        · rw [handshake_overflow _ _ _ h hL] at he
          simpa using Or.inl (List.mem_singleton.mp he)
      · rw [handshake_stop _ _ _ h] at he
        simp at he

/-- The trace of the handshake phase is a sequence of whole attempts,
each one a START byte followed by the 4-byte length field. -/
theorem handshake_shape (fileSize : Nat) (hL : fileSize < 4294967296) :
    ∀ (remote : List RR) (retry : Nat), ∃ n,
      (handshake fileSize retry remote).2.2 =
        (List.replicate n (attemptWrites fileSize)).flatten := by
  intro remote
  induction remote with
  | nil =>
      intro retry
      by_cases h : retry < 50
      · exact ⟨50 - retry, by rw [handshake_nil _ _ h hL]⟩
      · exact ⟨0, by rw [handshake_stop _ _ _ h]; simp⟩
  | cons r rest ih =>
      intro retry
      by_cases h : retry < 50
      · match r with
        | RR.raise =>
            refine ⟨1, ?_⟩
            rw [handshake_raise _ _ _ h hL]
            simp
        | RR.ok [] =>
            obtain ⟨n, hn⟩ := ih (retry + 1)
            refine ⟨n + 1, ?_⟩
            rw [handshake_emptyRead _ _ _ h hL]
            simp [List.replicate_succ, List.flatten_cons, hn]
        | RR.ok (b :: bs) =>
            by_cases hb : CMD_ACK ∈ b :: bs
            · refine ⟨1, ?_⟩
              rw [handshake_ack _ _ _ _ _ h hL hb]
              simp
            · obtain ⟨n, hn⟩ := ih retry
              refine ⟨n + 1, ?_⟩
              rw [handshake_junk _ _ _ _ _ h hL hb]
              simp [List.replicate_succ, List.flatten_cons, hn]
      · exact ⟨0, by rw [handshake_stop _ _ _ h]; simp⟩

/-- If no read result carries the ACK byte, the handshake never reports
ack_received. -/
theorem handshake_notOkTrue (fileSize : Nat) :
    ∀ (remote : List RR) (retry : Nat),
      (∀ r ∈ remote, noAckResp r = true) →
      (handshake fileSize retry remote).1 ≠ Except.ok true := by
  intro remote
  induction remote with
  | nil =>
      intro retry _
      by_cases h : retry < 50
      · by_cases hL : fileSize < 4294967296
        · rw [handshake_nil _ _ h hL]; simp
        · rw [handshake_overflow _ _ _ h hL]; simp
      · rw [handshake_stop _ _ _ h]; simp
  | cons r rest ih =>
      intro retry hno
      by_cases h : retry < 50
      · by_cases hL : fileSize < 4294967296
        · match r with
          | RR.raise =>
              rw [handshake_raise _ _ _ h hL]; simp
          | RR.ok [] =>
              rw [handshake_emptyRead _ _ _ h hL]
              exact ih (retry + 1) fun x hx => hno x (List.mem_cons_of_mem _ hx)
          | RR.ok (b :: bs) =>
              have hb : CMD_ACK ∉ b :: bs := by
                have := hno (RR.ok (b :: bs)) (List.mem_cons_self _ _)
                simpa [noAckResp] using this
              rw [handshake_junk _ _ _ _ _ h hL hb]
              exact ih retry fun x hx => hno x (List.mem_cons_of_mem _ hx)
        · rw [handshake_overflow _ _ _ h hL]; simp
      · rw [handshake_stop _ _ _ h]; simp

/-- A remote whose every handshake read returns empty makes the handshake
fail after exactly 50 START attempts on the wire. -/
theorem handshake_allEmpty (fileSize : Nat) (hL : fileSize < 4294967296) :
    ∀ (remote : List RR) (retry : Nat), retry ≤ 50 →
      (∀ r ∈ remote, r = RR.ok []) →
      (handshake fileSize retry remote).1 = Except.ok false ∧
      countStarts (handshake fileSize retry remote).2.2 = 50 - retry := by
  intro remote
  induction remote with
  | nil =>
      intro retry hr _
      by_cases h : retry < 50
      · rw [handshake_nil _ _ h hL]
        exact ⟨rfl, countStarts_flattenRep _ _⟩
      · rw [handshake_stop _ _ _ h]
        refine ⟨rfl, ?_⟩
        show (0 : Nat) = 50 - retry
        omega
  | cons r rest ih =>
      intro retry hr hall
      have hrq : r = RR.ok [] := hall r (List.mem_cons_self _ _)
      subst hrq
      by_cases h : retry < 50
      · rw [handshake_emptyRead _ _ _ h hL]
        have hih := ih (retry + 1) (by omega)
          (fun x hx => hall x (List.mem_cons_of_mem _ hx))
        refine ⟨hih.1, ?_⟩
        rw [countStarts_append, countStarts_attempt, hih.2]
        omega
      · rw [handshake_stop _ _ _ h]
        refine ⟨rfl, ?_⟩
        show (0 : Nat) = 50 - retry
        omega

/-- The handshake trace always begins with the START byte write. -/
theorem handshake_headStart (fileSize : Nat) (remote : List RR) :
    ∃ t, (handshake fileSize 0 remote).2.2 = Ev.write [CMD_START] :: t := by
  have h0 : (0 : Nat) < 50 := by omega
  by_cases hL : fileSize < 4294967296
  · match remote with
    | [] =>
        rw [handshake_nil _ _ h0 hL]
        have h50 : (50 : Nat) - 0 = 49 + 1 := rfl
        rw [h50, List.replicate_succ, List.flatten_cons]
        exact ⟨_, rfl⟩
    | RR.raise :: rest =>
        rw [handshake_raise _ _ _ h0 hL]
        exact ⟨_, rfl⟩
    | RR.ok [] :: rest =>
        rw [handshake_emptyRead _ _ _ h0 hL]
        exact ⟨_, rfl⟩
    | RR.ok (b :: bs) :: rest =>
        by_cases hb : CMD_ACK ∈ b :: bs
        · rw [handshake_ack _ _ _ _ _ h0 hL hb]
          exact ⟨_, rfl⟩
        · rw [handshake_junk _ _ _ _ _ h0 hL hb]
          exact ⟨_, rfl⟩
  · rw [handshake_overflow _ _ _ h0 hL]
    exact ⟨_, rfl⟩

/-- Unfolding of sendData when the file yields no further bytes: either
the loop breaks at once or it never starts; nothing is written. -/
theorem sendData_nil (fileSize t : Nat) (remote : List RR) :
    sendData fileSize [] t remote = (Except.ok true, t, remote, []) := by
  simp [sendData]

/-- Unfolding of sendData once total_sent has reached file_size. -/
theorem sendData_done (fileSize : Nat) (payload : List Nat) (t : Nat)
    (remote : List RR) (h : ¬ t < fileSize) :
    sendData fileSize payload t remote = (Except.ok true, t, remote, []) := by
  match payload with
  | [] => simp [sendData]
  | p :: ps =>
      match remote with
      | [] => simp [sendData, h]
      | RR.raise :: rest => simp [sendData, h]
      | RR.ok a :: rest => simp [sendData, h]

/-- Unfolding of sendData when the per-chunk ACK read returns nothing. -/
theorem sendData_nilRemote (fileSize t : Nat) (p : Nat) (ps : List Nat)
    (h : t < fileSize) :
    sendData fileSize (p :: ps) t [] =
      (Except.ok false, t, [], chunkWrites ((p :: ps).take CHUNK_SIZE)) := by
  simp [sendData, h]

/-- Unfolding of sendData when the per-chunk ACK read raises. -/
theorem sendData_raise (fileSize t : Nat) (p : Nat) (ps : List Nat)
    (rest : List RR) (h : t < fileSize) :
    sendData fileSize (p :: ps) t (RR.raise :: rest) =
      (Except.error (), t, rest, chunkWrites ((p :: ps).take CHUNK_SIZE)) := by
  simp [sendData, h]

/-- Unfolding of sendData when the per-chunk ACK read returns a wrong
first byte (or no byte at all): total_sent is not advanced. -/
theorem sendData_nack (fileSize t : Nat) (p : Nat) (ps a : List Nat)
    (rest : List RR) (h : t < fileSize) (ha : ¬ a.head? = some CMD_ACK) :
    sendData fileSize (p :: ps) t (RR.ok a :: rest) =
      (Except.ok false, t, rest, chunkWrites ((p :: ps).take CHUNK_SIZE)) := by
  simp [sendData, h, ha]

/-- Unfolding of sendData when the per-chunk ACK arrives: the chunk length
is added to total_sent and the loop continues. -/
theorem sendData_ack (fileSize t : Nat) (p : Nat) (ps a : List Nat)
    (rest : List RR) (h : t < fileSize) (ha : a.head? = some CMD_ACK) :
    sendData fileSize (p :: ps) t (RR.ok a :: rest) =
      ((sendData fileSize ((p :: ps).drop CHUNK_SIZE)
          (t + ((p :: ps).take CHUNK_SIZE).length) rest).1,
       (sendData fileSize ((p :: ps).drop CHUNK_SIZE)
          (t + ((p :: ps).take CHUNK_SIZE).length) rest).2.1,
       (sendData fileSize ((p :: ps).drop CHUNK_SIZE)
          (t + ((p :: ps).take CHUNK_SIZE).length) rest).2.2.1,
       chunkWrites ((p :: ps).take CHUNK_SIZE) ++
         (sendData fileSize ((p :: ps).drop CHUNK_SIZE)
            (t + ((p :: ps).take CHUNK_SIZE).length) rest).2.2.2) := by
  simp [sendData, h, ha]

/-- A successful run of the chunk loop splits the remaining payload into
whole chunks: the trace is the concatenation of the chunk writes, there
are ceil (length / 256) chunks, each at most 256 bytes, and their lengths
add up to the remaining payload length. -/
theorem sendData_success_spec (fileSize : Nat) :
    ∀ (remote : List RR) (payload : List Nat) (t : Nat),
      t + payload.length = fileSize →
      (sendData fileSize payload t remote).1 = Except.ok true →
      ∃ chunks : List (List Nat),
        (sendData fileSize payload t remote).2.2.2 =
          (chunks.map chunkWrites).flatten ∧
        chunks.length = (payload.length + 255) / 256 ∧
        (∀ c ∈ chunks, c.length ≤ 256) ∧
        (chunks.map List.length).sum = payload.length := by
  intro remote
  induction remote with
  | nil =>
      intro payload t hinv hok
      match payload with
      | [] =>
          rw [sendData_nil]
          exact ⟨[], by simp, by simp, by simp, by simp⟩
      | p :: ps =>
          have h : t < fileSize := by simp at hinv; omega
          rw [sendData_nilRemote _ _ _ _ h] at hok
          simp at hok
  | cons r rest ih =>
      intro payload t hinv hok
      match payload with
      | [] =>
          rw [sendData_nil]
          exact ⟨[], by simp, by simp, by simp, by simp⟩
      | p :: ps =>
          have h : t < fileSize := by simp at hinv; omega
          match r with
          | RR.raise =>
              rw [sendData_raise _ _ _ _ _ h] at hok
              simp at hok
          | RR.ok a =>
              by_cases ha : a.head? = some CMD_ACK
              · rw [sendData_ack _ _ _ _ _ _ h ha] at hok ⊢
                have htake : ((p :: ps).take CHUNK_SIZE).length =
                    min CHUNK_SIZE (p :: ps).length := List.length_take ..
                have hdrop : ((p :: ps).drop CHUNK_SIZE).length =
                    (p :: ps).length - CHUNK_SIZE := List.length_drop ..
                have hinv2 : (t + ((p :: ps).take CHUNK_SIZE).length) +
                    ((p :: ps).drop CHUNK_SIZE).length = fileSize := by
                  rw [htake, hdrop]
                  simp only [CHUNK_SIZE]
                  omega
                obtain ⟨chunks, hc1, hc2, hc3, hc4⟩ :=
                  ih ((p :: ps).drop CHUNK_SIZE)
                    (t + ((p :: ps).take CHUNK_SIZE).length) hinv2 hok
                refine ⟨(p :: ps).take CHUNK_SIZE :: chunks, ?_, ?_, ?_, ?_⟩
                · simp only [List.map_cons, List.flatten_cons, hc1]
                · simp only [List.length_cons, hc2, hdrop]
                  have hplen : 0 < (p :: ps).length := by simp
                  simp only [CHUNK_SIZE]
                  omega
                · intro c hc
                  rcases List.mem_cons.mp hc with hc | hc
                  · subst hc
                    rw [htake]
                    simp [CHUNK_SIZE]
                  · exact hc3 c hc
                · simp only [List.map_cons, List.sum_cons, hc4, htake, hdrop]
                  have hplen : 0 < (p :: ps).length := by simp
                  simp only [CHUNK_SIZE]
                  omega
              · rw [sendData_nack _ _ _ _ _ _ h ha] at hok
                simp at hok

/-- If the remote acknowledges the first j chunks and then answers the
ACK read of chunk j + 1 with a wrong or missing byte, the chunk loop
stops with result False and total_sent equal to the j * 256 bytes of the
j acknowledged full chunks. -/
theorem sendData_failAt (fileSize : Nat) :
    ∀ (j : Nat) (payload : List Nat) (t : Nat) (a : List Nat) (rest : List RR),
      t + payload.length = fileSize →
      j * 256 < payload.length →
      ¬ a.head? = some CMD_ACK →
      (sendData fileSize payload t
          (List.replicate j (RR.ok [CMD_ACK]) ++ RR.ok a :: rest)).1 =
        Except.ok false ∧
      (sendData fileSize payload t
          (List.replicate j (RR.ok [CMD_ACK]) ++ RR.ok a :: rest)).2.1 =
        t + j * 256 := by
  intro j
  induction j with
  | zero =>
      intro payload t a rest hinv hlen ha
      match payload with
      | [] => simp at hlen
      | p :: ps =>
          have h : t < fileSize := by simp at hinv; omega
          rw [List.replicate_zero, List.nil_append, sendData_nack _ _ _ _ _ _ h ha]
          exact ⟨rfl, by simp⟩
  | succ j ih =>
      intro payload t a rest hinv hlen ha
      match payload with
      | [] => simp at hlen
      | p :: ps =>
          have h : t < fileSize := by simp at hinv; omega
          rw [List.replicate_succ, List.cons_append,
            sendData_ack _ _ _ _ _ _ h
              (by simp : ([CMD_ACK] : List Nat).head? = some CMD_ACK)]
          have htake : ((p :: ps).take CHUNK_SIZE).length = 256 := by
            rw [List.length_take]
            have hc : (p :: ps).length = ps.length + 1 := rfl
            simp only [CHUNK_SIZE]
            omega
          have hih := ih ((p :: ps).drop CHUNK_SIZE)
            (t + ((p :: ps).take CHUNK_SIZE).length) a rest
            (by rw [htake, List.length_drop]
                simp only [CHUNK_SIZE]
                omega)
            (by rw [List.length_drop]
                simp only [CHUNK_SIZE]
                omega)
            ha
          refine ⟨hih.1, ?_⟩
          rw [hih.2, htake]
          omega

/-- The boolean returned by sendFontFile and the trace it returns, in
terms of the try block: the trace is the try block trace, and any try
block outcome other than ok true yields the return value False. -/
theorem sendFontFile_split (fileSize : Nat) (payload : List Nat) (openOk : Bool)
    (remote : List RR) :
    (sendFontFile true fileSize payload openOk remote).2 =
      (trySession fileSize payload openOk remote).2 ∧
    ((trySession fileSize payload openOk remote).1 ≠ Except.ok true →
      (sendFontFile true fileSize payload openOk remote).1 = false) := by
  rcases h : trySession fileSize payload openOk remote with ⟨res, tr⟩
  match res with
  | Except.error e => simp [sendFontFile, h]
  | Except.ok true => simp [sendFontFile, h]
  | Except.ok false => simp [sendFontFile, h]

/-- Neither the port bookkeeping, the trigger byte, nor any handshake
write is a DATA command write. -/
theorem preDataEvents (fileSize : Nat) :
    (∀ e ∈ ([Ev.openPort, Ev.write [CMD_CHINESE]] : Trace),
      e ≠ Ev.write [CMD_DATA]) ∧
    (∀ tail : List RR, ∀ retry : Nat, ∀ e ∈ (handshake fileSize retry tail).2.2,
      e ≠ Ev.write [CMD_DATA]) := by
  constructor
  · intro e he
    simp at he
    rcases he with he | he <;> subst he <;> decide
  · intro tail retry e he
    rcases handshake_events fileSize tail retry e he with hx | hx
    · subst hx; decide
    · subst hx
      intro hq
      injection hq with hq2
      exact le4_ne_single fileSize CMD_DATA hq2

/-- When no read result of the session carries the ACK byte, the try
block cannot end in success and no DATA command byte is ever written. -/
theorem trySession_noAck (fileSize : Nat) (payload : List Nat) (remote : List RR)
    (hno : ∀ r ∈ remote, noAckResp r = true) :
    (trySession fileSize payload true remote).1 ≠ Except.ok true ∧
    (∀ e ∈ (trySession fileSize payload true remote).2, e ≠ Ev.write [CMD_DATA]) := by
  have ht0 := (preDataEvents fileSize).1
  have hhs := (preDataEvents fileSize).2
  have hmain : ∀ tail : List RR, (∀ r ∈ tail, noAckResp r = true) →
      ∀ rem2 : List RR,
      ((match (handshake fileSize 0 tail).1 with
        | Except.error e =>
            (Except.error e,
              ([Ev.openPort, Ev.write [CMD_CHINESE]] : Trace) ++
                (handshake fileSize 0 tail).2.2)
        | Except.ok false =>
            (Except.ok false,
              ([Ev.openPort, Ev.write [CMD_CHINESE]] : Trace) ++
                (handshake fileSize 0 tail).2.2 ++ [Ev.closePort])
        | Except.ok true =>
          match (sendData fileSize payload 0 rem2).1 with
          | Except.error e =>
              (Except.error e,
                ([Ev.openPort, Ev.write [CMD_CHINESE]] : Trace) ++
                  (handshake fileSize 0 tail).2.2 ++
                  (sendData fileSize payload 0 rem2).2.2.2)
          | Except.ok false =>
              (Except.ok false,
                ([Ev.openPort, Ev.write [CMD_CHINESE]] : Trace) ++
                  (handshake fileSize 0 tail).2.2 ++
                  (sendData fileSize payload 0 rem2).2.2.2 ++ [Ev.closePort])
          | Except.ok true =>
              (Except.ok true,
                ([Ev.openPort, Ev.write [CMD_CHINESE]] : Trace) ++
                  (handshake fileSize 0 tail).2.2 ++
                  (sendData fileSize payload 0 rem2).2.2.2 ++
                  [Ev.write [CMD_END], Ev.closePort]) :
          Except Unit Bool × Trace)).1 ≠ Except.ok true ∧
      (∀ e ∈ ((match (handshake fileSize 0 tail).1 with
        | Except.error e =>
            (Except.error e,
              ([Ev.openPort, Ev.write [CMD_CHINESE]] : Trace) ++
                (handshake fileSize 0 tail).2.2)
        | Except.ok false =>
            (Except.ok false,
              ([Ev.openPort, Ev.write [CMD_CHINESE]] : Trace) ++
                (handshake fileSize 0 tail).2.2 ++ [Ev.closePort])
        | Except.ok true =>
          match (sendData fileSize payload 0 rem2).1 with
          | Except.error e =>
              (Except.error e,
                ([Ev.openPort, Ev.write [CMD_CHINESE]] : Trace) ++
                  (handshake fileSize 0 tail).2.2 ++
                  (sendData fileSize payload 0 rem2).2.2.2)
          | Except.ok false =>
              (Except.ok false,
                ([Ev.openPort, Ev.write [CMD_CHINESE]] : Trace) ++
                  (handshake fileSize 0 tail).2.2 ++
                  (sendData fileSize payload 0 rem2).2.2.2 ++ [Ev.closePort])
          | Except.ok true =>
              (Except.ok true,
                ([Ev.openPort, Ev.write [CMD_CHINESE]] : Trace) ++
                  (handshake fileSize 0 tail).2.2 ++
                  (sendData fileSize payload 0 rem2).2.2.2 ++
                  [Ev.write [CMD_END], Ev.closePort]) :
          Except Unit Bool × Trace)).2, e ≠ Ev.write [CMD_DATA]) := by
    intro tail htail rem2
    have hne := handshake_notOkTrue fileSize tail 0 htail
    rcases hh : (handshake fileSize 0 tail).1 with e | b
    · refine ⟨by simp, ?_⟩
      intro ev hev
      rcases List.mem_append.mp hev with hx | hx
      · exact ht0 ev hx
      · exact hhs tail 0 ev hx
    · match b with
      | true => exact absurd hh hne
      | false =>
          refine ⟨by simp, ?_⟩
          intro ev hev
          rcases List.mem_append.mp hev with hx | hx
          · rcases List.mem_append.mp hx with hy | hy
            · exact ht0 ev hy
            · exact hhs tail 0 ev hy
          · simp at hx
            subst hx
            decide
  match remote with
  | [] => exact hmain [] (by intro r hr; simp at hr) _
  | RR.ok a :: rs =>
      exact hmain rs (fun r hr => hno r (List.mem_cons_of_mem _ hr)) _
  | RR.raise :: rs =>
      refine ⟨by simp [trySession], ?_⟩
      intro ev hev
      have htr : (trySession fileSize payload true (RR.raise :: rs)).2 =
          [Ev.openPort, Ev.write [CMD_CHINESE]] := by simp [trySession]
      rw [htr] at hev
      exact ht0 ev hev

/-- The mode-select response bytes are never inspected: the try block is
the same function of the rest of the session whatever bytes the first
read returns. -/
theorem trySession_okRead_irrelevant (fileSize : Nat) (payload : List Nat)
    (openOk : Bool) (r1 r2 : List Nat) (rest : List RR) :
    trySession fileSize payload openOk (RR.ok r1 :: rest) =
      trySession fileSize payload openOk (RR.ok r2 :: rest) := rfl

/-- For a session whose first read returns bytes (no raise), the trace of
the try block is the port open, the trigger byte, the whole handshake
trace, and then some suffix. -/
theorem trySession_tracePre (fileSize : Nat) (payload : List Nat) :
    ∀ remote : List RR, (∀ rs, remote ≠ RR.raise :: rs) →
    ∃ u, (trySession fileSize payload true remote).2 =
      Ev.openPort :: Ev.write [CMD_CHINESE] ::
        ((handshake fileSize 0 remote.tail).2.2 ++ u) := by
  have hmain : ∀ tail rem2 : List RR,
      ∃ u, ((match (handshake fileSize 0 tail).1 with
        | Except.error e =>
            (Except.error e,
              ([Ev.openPort, Ev.write [CMD_CHINESE]] : Trace) ++
                (handshake fileSize 0 tail).2.2)
        | Except.ok false =>
            (Except.ok false,
              ([Ev.openPort, Ev.write [CMD_CHINESE]] : Trace) ++
                (handshake fileSize 0 tail).2.2 ++ [Ev.closePort])
        | Except.ok true =>
          match (sendData fileSize payload 0 rem2).1 with
          | Except.error e =>
              (Except.error e,
                ([Ev.openPort, Ev.write [CMD_CHINESE]] : Trace) ++
                  (handshake fileSize 0 tail).2.2 ++
                  (sendData fileSize payload 0 rem2).2.2.2)
          | Except.ok false =>
              (Except.ok false,
                ([Ev.openPort, Ev.write [CMD_CHINESE]] : Trace) ++
                  (handshake fileSize 0 tail).2.2 ++
                  (sendData fileSize payload 0 rem2).2.2.2 ++ [Ev.closePort])
          | Except.ok true =>
              (Except.ok true,
                ([Ev.openPort, Ev.write [CMD_CHINESE]] : Trace) ++
                  (handshake fileSize 0 tail).2.2 ++
                  (sendData fileSize payload 0 rem2).2.2.2 ++
                  [Ev.write [CMD_END], Ev.closePort]) :
          Except Unit Bool × Trace)).2 =
        Ev.openPort :: Ev.write [CMD_CHINESE] ::
          ((handshake fileSize 0 tail).2.2 ++ u) := by
    intro tail rem2
    rcases hh : (handshake fileSize 0 tail).1 with e | b
    · exact ⟨[], by simp⟩
    · match b with
      | false => exact ⟨[Ev.closePort], by simp⟩
      | true =>
          rcases hd : (sendData fileSize payload 0 rem2).1 with e2 | b2
          · exact ⟨(sendData fileSize payload 0 rem2).2.2.2, by simp⟩
          · match b2 with
            | false =>
                exact ⟨(sendData fileSize payload 0 rem2).2.2.2 ++ [Ev.closePort],
                  by simp⟩
            | true =>
                exact ⟨(sendData fileSize payload 0 rem2).2.2.2 ++
                  [Ev.write [CMD_END], Ev.closePort], by simp⟩
  intro remote hnr
  match remote with
  | [] => exact hmain [] _
  | RR.ok a :: rs => exact hmain rs _
  | RR.raise :: rs => exact absurd rfl (hnr rs)

/-- A remote whose every read returns empty drives the try block to the
retry-exhausted failure, with exactly 50 START attempts on the wire. -/
theorem trySession_allEmpty (fileSize : Nat) (payload : List Nat)
    (hL : fileSize < 4294967296) :
    ∀ remote : List RR, (∀ r ∈ remote, r = RR.ok []) →
    (trySession fileSize payload true remote).1 = Except.ok false ∧
    countStarts (trySession fileSize payload true remote).2 = 50 := by
  have hmain : ∀ tail : List RR, (∀ r ∈ tail, r = RR.ok []) → ∀ rem2 : List RR,
      ((match (handshake fileSize 0 tail).1 with
        | Except.error e =>
            (Except.error e,
              ([Ev.openPort, Ev.write [CMD_CHINESE]] : Trace) ++
                (handshake fileSize 0 tail).2.2)
        | Except.ok false =>
            (Except.ok false,
              ([Ev.openPort, Ev.write [CMD_CHINESE]] : Trace) ++
                (handshake fileSize 0 tail).2.2 ++ [Ev.closePort])
        | Except.ok true =>
          match (sendData fileSize payload 0 rem2).1 with
          | Except.error e =>
              (Except.error e,
                ([Ev.openPort, Ev.write [CMD_CHINESE]] : Trace) ++
                  (handshake fileSize 0 tail).2.2 ++
                  (sendData fileSize payload 0 rem2).2.2.2)
          | Except.ok false =>
              (Except.ok false,
                ([Ev.openPort, Ev.write [CMD_CHINESE]] : Trace) ++
                  (handshake fileSize 0 tail).2.2 ++
                  (sendData fileSize payload 0 rem2).2.2.2 ++ [Ev.closePort])
          | Except.ok true =>
              (Except.ok true,
                ([Ev.openPort, Ev.write [CMD_CHINESE]] : Trace) ++
                  (handshake fileSize 0 tail).2.2 ++
                  (sendData fileSize payload 0 rem2).2.2.2 ++
                  [Ev.write [CMD_END], Ev.closePort]) :
          Except Unit Bool × Trace)).1 = Except.ok false ∧
      countStarts ((match (handshake fileSize 0 tail).1 with
        | Except.error e =>
            (Except.error e,
              ([Ev.openPort, Ev.write [CMD_CHINESE]] : Trace) ++
                (handshake fileSize 0 tail).2.2)
        | Except.ok false =>
            (Except.ok false,
              ([Ev.openPort, Ev.write [CMD_CHINESE]] : Trace) ++
                (handshake fileSize 0 tail).2.2 ++ [Ev.closePort])
        | Except.ok true =>
          match (sendData fileSize payload 0 rem2).1 with
          | Except.error e =>
              (Except.error e,
                ([Ev.openPort, Ev.write [CMD_CHINESE]] : Trace) ++
                  (handshake fileSize 0 tail).2.2 ++
                  (sendData fileSize payload 0 rem2).2.2.2)
          | Except.ok false =>
              (Except.ok false,
                ([Ev.openPort, Ev.write [CMD_CHINESE]] : Trace) ++
                  (handshake fileSize 0 tail).2.2 ++
                  (sendData fileSize payload 0 rem2).2.2.2 ++ [Ev.closePort])
          | Except.ok true =>
              (Except.ok true,
                ([Ev.openPort, Ev.write [CMD_CHINESE]] : Trace) ++
                  (handshake fileSize 0 tail).2.2 ++
                  (sendData fileSize payload 0 rem2).2.2.2 ++
                  [Ev.write [CMD_END], Ev.closePort]) :
          Except Unit Bool × Trace)).2 = 50 := by
    intro tail htail rem2
    have hae := handshake_allEmpty fileSize hL tail 0 (by omega) htail
    rcases hh : (handshake fileSize 0 tail).1 with e | b
    · rw [hh] at hae
      exact absurd hae.1 (by simp)
    · match b with
      | true =>
          rw [hh] at hae
          exact absurd hae.1 (by simp)
      | false =>
          refine ⟨rfl, ?_⟩
          show countStarts (([Ev.openPort, Ev.write [CMD_CHINESE]] : Trace) ++
            (handshake fileSize 0 tail).2.2 ++ [Ev.closePort]) = 50
          rw [countStarts_append, countStarts_append, hae.2]
          decide
  intro remote hall
  match remote with
  | [] => exact hmain [] (by intro r hr; simp at hr) _
  | RR.ok a :: rs =>
      have ha : RR.ok a = RR.ok [] := hall _ (List.mem_cons_self _ _)
      have ha2 : a = [] := by injection ha
      subst ha2
      exact hmain rs (fun r hr => hall r (List.mem_cons_of_mem _ hr)) _
  | RR.raise :: rs =>
      have := hall RR.raise (List.mem_cons_self _ _)
      simp at this

/-- C1: for every payload length L, a successful transfer emits exactly
ceil (L / 256) DATA chunks, each chunk at most 256 bytes, and the chunk
lengths sum to L exactly (in particular L = 0 emits zero DATA chunks,
since (0 + 255) / 256 = 0). -/
theorem claim_C1 (payload : List Nat) (remote : List RR)
    (hsucc : (sendData payload.length payload 0 remote).1 = Except.ok true) :
    ∃ chunks : List (List Nat),
      (sendData payload.length payload 0 remote).2.2.2 =
        (chunks.map chunkWrites).flatten ∧
      chunks.length = (payload.length + 255) / 256 ∧
      (∀ c ∈ chunks, c.length ≤ 256) ∧
      (chunks.map List.length).sum = payload.length :=
  sendData_success_spec payload.length remote payload 0 (by omega) hsucc

/-- Witness for C1 at a concrete 300-byte payload with an always-ACKing
remote: two chunks. -/
theorem claim_C1_witness :
    ∃ chunks : List (List Nat),
      (sendData (List.replicate 300 1).length (List.replicate 300 1) 0
          [RR.ok [CMD_ACK], RR.ok [CMD_ACK]]).2.2.2 =
        (chunks.map chunkWrites).flatten ∧
      chunks.length = ((List.replicate 300 1).length + 255) / 256 ∧
      (∀ c ∈ chunks, c.length ≤ 256) ∧
      (chunks.map List.length).sum = (List.replicate 300 1).length :=
  claim_C1 (List.replicate 300 1) [RR.ok [CMD_ACK], RR.ok [CMD_ACK]] rfl

/-- C3: in every session that reaches the handshake, the 4-byte field
written immediately after each START byte is the little-endian encoding
of the file size: the handshake trace consists of whole attempts, each
attempt writes the START byte and then le4 of the file size, and that
field decodes back to exactly the file size. -/
theorem claim_C3 (fileSize retry : Nat) (remote : List RR)
    (hL : fileSize < 4294967296) :
    (∃ n, (handshake fileSize retry remote).2.2 =
      (List.replicate n (attemptWrites fileSize)).flatten) ∧
    attemptWrites fileSize = [Ev.write [CMD_START], Ev.write (le4 fileSize)] ∧
    decodeLE4 (le4 fileSize) = fileSize := by
  refine ⟨handshake_shape fileSize hL remote retry, rfl, ?_⟩
  simp only [decodeLE4, le4]
  omega

/-- Witness for C3 at file size 600. -/
theorem claim_C3_witness :
    (∃ n, (handshake 600 0 ([] : List RR)).2.2 =
      (List.replicate n (attemptWrites 600)).flatten) ∧
    attemptWrites 600 = [Ev.write [CMD_START], Ev.write (le4 600)] ∧
    decodeLE4 (le4 600) = 600 :=
  claim_C3 600 0 [] (by decide)

/-- C4: if the remote acknowledges chunks 1 .. k-1 (here k - 1 = j) and
the ACK read after chunk k returns empty or a non-ACK first byte, the
chunk loop returns False immediately and the reported bytes-sent total is
the sum of the lengths of chunks 1 .. k-1 only, namely j * 256 (each of
the first j chunks is a full 256-byte chunk because chunk k exists). -/
theorem claim_C4 (payload : List Nat) (j : Nat) (a : List Nat) (rest : List RR)
    (hj : j * 256 < payload.length) (ha : ¬ a.head? = some CMD_ACK) :
    (sendData payload.length payload 0
        (List.replicate j (RR.ok [CMD_ACK]) ++ RR.ok a :: rest)).1 =
      Except.ok false ∧
    (sendData payload.length payload 0
        (List.replicate j (RR.ok [CMD_ACK]) ++ RR.ok a :: rest)).2.1 =
      j * 256 := by
  have h := sendData_failAt payload.length j payload 0 a rest (by omega) hj ha
  exact ⟨h.1, by rw [h.2]; omega⟩

/-- Witness for C4: failure at the second chunk of a 300-byte payload,
with 256 bytes reported sent. -/
theorem claim_C4_witness :
    (sendData (List.replicate 300 1).length (List.replicate 300 1) 0
        (List.replicate 1 (RR.ok [CMD_ACK]) ++ RR.ok [0] :: [])).1 =
      Except.ok false ∧
    (sendData (List.replicate 300 1).length (List.replicate 300 1) 0
        (List.replicate 1 (RR.ok [CMD_ACK]) ++ RR.ok [0] :: [])).2.1 =
      1 * 256 :=
  claim_C4 (List.replicate 300 1) 1 [0] [] (by decide) (by decide)

/-- C6: if the font file does not exist, send_font_file returns False
with an empty link trace: the port is never opened and no byte is ever
written. -/
theorem claim_C6 (fileSize : Nat) (payload : List Nat) (openOk : Bool)
    (remote : List RR) :
    sendFontFile false fileSize payload openOk remote = (false, []) := rfl

/-- C8: the uploader is a pure function of the payload bytes, the file
size, the link-open outcome and the remote's read results; two runs on
equal inputs produce the identical result and the identical sequence of
bytes on the wire. -/
theorem claim_C8 (fe1 fe2 o1 o2 : Bool) (L1 L2 : Nat) (p1 p2 : List Nat)
    (rm1 rm2 : List RR) (hfe : fe1 = fe2) (hL : L1 = L2) (hp : p1 = p2)
    (ho : o1 = o2) (hrm : rm1 = rm2) :
    sendFontFile fe1 L1 p1 o1 rm1 = sendFontFile fe2 L2 p2 o2 rm2 := by
  subst hfe; subst hL; subst hp; subst ho; subst hrm; rfl

/-- Witness for C8 at one concrete input. -/
theorem claim_C8_witness :
    sendFontFile true 600 [1, 2] true [RR.ok []] =
      sendFontFile true 600 [1, 2] true [RR.ok []] :=
  claim_C8 true true true true 600 600 [1, 2] [1, 2] [RR.ok []] [RR.ok []]
    rfl rfl rfl rfl rfl

/-- C10: the try/except wrapper converts every escaped exception of the
session body (serial errors on open or read, to_bytes overflow) into the
return value False; no exception propagates to the caller. -/
theorem claim_C10 (fileSize : Nat) (payload : List Nat) (openOk : Bool)
    (remote : List RR) (e : Unit) (tr : Trace)
    (h : trySession fileSize payload openOk remote = (Except.error e, tr)) :
    sendFontFile true fileSize payload openOk remote = (false, tr) := by
  simp [sendFontFile, h]

/-- Witness for C10: a failed port open makes the body raise and the
function return False. -/
theorem claim_C10_witness :
    sendFontFile true 600 [1, 2, 3] false [] = (false, []) :=
  claim_C10 600 [1, 2, 3] false [] () [] rfl

/-- C2 (amended): for every remote that never returns the ACK byte during
the session, send_font_file returns False and no DATA command byte (0xBB)
is ever written to the link; the number of START attempts on the wire is
exactly 50 when every read returns empty (for a file size that fits the
4-byte field), while a non-empty non-ACK response adds a START attempt
beyond the 50 counted by the retry budget. -/
theorem claim_C2 (fileSize : Nat) (payload : List Nat) (remote : List RR)
    (hno : ∀ r ∈ remote, noAckResp r = true) :
    (sendFontFile true fileSize payload true remote).1 = false ∧
    (∀ e ∈ (sendFontFile true fileSize payload true remote).2,
      e ≠ Ev.write [CMD_DATA]) ∧
    ((∀ r ∈ remote, r = RR.ok []) → fileSize < 4294967296 →
      countStarts (sendFontFile true fileSize payload true remote).2 = 50) := by
  have hsplit := sendFontFile_split fileSize payload true remote
  have hna := trySession_noAck fileSize payload remote hno
  refine ⟨hsplit.2 hna.1, ?_, ?_⟩
  · rw [hsplit.1]
    exact hna.2
  · intro hall hL
    rw [hsplit.1]
    exact (trySession_allEmpty fileSize payload hL remote hall).2

/-- Counterexample to C2 as stated: a remote that never returns the ACK
byte but answers the first handshake read with the non-ACK byte 0x00
drives the session to failure after 51 START attempts on the wire, not
50: the non-empty read does not consume a retry. -/
theorem claim_C2_counterexample :
    (∀ r ∈ [RR.ok [], RR.ok [0]], noAckResp r = true) ∧
    (sendFontFile true 1 [0] true [RR.ok [], RR.ok [0]]).1 = false ∧
    countStarts (sendFontFile true 1 [0] true [RR.ok [], RR.ok [0]]).2 = 51 := by
  decide

/-- Witness for C2 at a remote whose two reads both return empty. -/
theorem claim_C2_witness :
    (sendFontFile true 1 [0] true [RR.ok [], RR.ok []]).1 = false ∧
    (∀ e ∈ (sendFontFile true 1 [0] true [RR.ok [], RR.ok []]).2,
      e ≠ Ev.write [CMD_DATA]) ∧
    ((∀ r ∈ [RR.ok [], RR.ok []], r = RR.ok []) → (1 : Nat) < 4294967296 →
      countStarts (sendFontFile true 1 [0] true [RR.ok [], RR.ok []]).2 = 50) :=
  claim_C2 1 [0] [RR.ok [], RR.ok []] (by decide)

/-- C5: the mode-select OK check never causes failure: whatever bytes the
read after the trigger byte returns (empty, short, or arbitrary), the
whole run of send_font_file is unchanged, and the session always proceeds
to the START handshake (the trigger write is immediately followed by the
first START write). -/
theorem claim_C5 (fileSize : Nat) (payload : List Nat) (r1 r2 : List Nat)
    (rest : List RR) :
    sendFontFile true fileSize payload true (RR.ok r1 :: rest) =
      sendFontFile true fileSize payload true (RR.ok r2 :: rest) ∧
    ∃ u, (sendFontFile true fileSize payload true (RR.ok r1 :: rest)).2 =
      Ev.openPort :: Ev.write [CMD_CHINESE] :: Ev.write [CMD_START] :: u := by
  constructor
  · rfl
  · obtain ⟨u, hu⟩ := trySession_tracePre fileSize payload (RR.ok r1 :: rest)
      (by intro rs h; simp at h)
    obtain ⟨t, ht⟩ := handshake_headStart fileSize rest
    refine ⟨t ++ u, ?_⟩
    rw [(sendFontFile_split fileSize payload true (RR.ok r1 :: rest)).1, hu]
    simp only [List.tail_cons]
    rw [ht]
    simp

/-- C7: end-to-end concrete scenario: a 600-byte payload with an
always-ACKing remote yields exactly three DATA chunks of sizes 256, 256
and 88 in that order, the chunk loop ends having consumed exactly its
three per-chunk ACK reads, the END byte is written and the call returns
True. -/
theorem claim_C7 :
    sendFontFile true 600 (List.replicate 600 7) true
        [RR.ok [79, 75, 13, 10], RR.ok [CMD_ACK], RR.ok [CMD_ACK],
         RR.ok [CMD_ACK], RR.ok [CMD_ACK]] =
      (true,
        [Ev.openPort, Ev.write [CMD_CHINESE],
         Ev.write [CMD_START], Ev.write [88, 2, 0, 0],
         Ev.write [CMD_DATA], Ev.write [0, 1], Ev.write (List.replicate 256 7),
         Ev.write [CMD_DATA], Ev.write [0, 1], Ev.write (List.replicate 256 7),
         Ev.write [CMD_DATA], Ev.write [88, 0], Ev.write (List.replicate 88 7),
         Ev.write [CMD_END], Ev.closePort]) ∧
    (sendData 600 (List.replicate 600 7) 0
        [RR.ok [CMD_ACK], RR.ok [CMD_ACK], RR.ok [CMD_ACK]]).2.2.1 = [] ∧
    (sendData 600 (List.replicate 600 7) 0
        [RR.ok [CMD_ACK], RR.ok [CMD_ACK], RR.ok [CMD_ACK]]).1 =
      Except.ok true := by
  refine ⟨?_, ?_, ?_⟩ <;> rfl

/-- C9: the handshake retry counter is incremented only on an empty read:
a non-empty read without the ACK byte recurses with the same retry count,
an empty read recurses with retry + 1, and a remote that answers n times
with a non-empty non-ACK byte before going silent causes n + 50 START
attempts on the wire, so the 50-attempt budget does not bound the number
of attempts for such remotes. -/
theorem claim_C9 (fileSize retry : Nat) (hL : fileSize < 4294967296)
    (hr : retry < 50) :
    (∀ (b : Nat) (bs : List Nat) (rest : List RR), CMD_ACK ∉ b :: bs →
      handshake fileSize retry (RR.ok (b :: bs) :: rest) =
        ((handshake fileSize retry rest).1,
         (handshake fileSize retry rest).2.1,
         attemptWrites fileSize ++ (handshake fileSize retry rest).2.2)) ∧
    (∀ rest : List RR,
      handshake fileSize retry (RR.ok [] :: rest) =
        ((handshake fileSize (retry + 1) rest).1,
         (handshake fileSize (retry + 1) rest).2.1,
         attemptWrites fileSize ++ (handshake fileSize (retry + 1) rest).2.2)) ∧
    (∀ n : Nat,
      countStarts (handshake fileSize 0 (List.replicate n (RR.ok [0]))).2.2 =
        n + 50) := by
  refine ⟨fun b bs rest hb => handshake_junk _ _ _ _ _ hr hL hb,
    fun rest => handshake_emptyRead _ _ _ hr hL, ?_⟩
  intro n
  induction n with
  | zero =>
      rw [List.replicate_zero, handshake_nil _ _ (by omega) hL]
      show countStarts (List.replicate (50 - 0) (attemptWrites fileSize)).flatten
        = 0 + 50
      rw [countStarts_flattenRep]
  | succ k ih =>
      rw [List.replicate_succ,
        handshake_junk _ _ _ _ _ (by omega) hL (by decide)]
      show countStarts (attemptWrites fileSize ++
        (handshake fileSize 0 (List.replicate k (RR.ok [0]))).2.2) = (k + 1) + 50
      rw [countStarts_append, countStarts_attempt, ih]
      omega

/-- Witness for C9 at file size 600 and retry count 0. -/
theorem claim_C9_witness :
    (∀ (b : Nat) (bs : List Nat) (rest : List RR), CMD_ACK ∉ b :: bs →
      handshake 600 0 (RR.ok (b :: bs) :: rest) =
        ((handshake 600 0 rest).1,
         (handshake 600 0 rest).2.1,
         attemptWrites 600 ++ (handshake 600 0 rest).2.2)) ∧
    (∀ rest : List RR,
      handshake 600 0 (RR.ok [] :: rest) =
        ((handshake 600 (0 + 1) rest).1,
         (handshake 600 (0 + 1) rest).2.1,
         attemptWrites 600 ++ (handshake 600 (0 + 1) rest).2.2)) ∧
    (∀ n : Nat,
      countStarts (handshake 600 0 (List.replicate n (RR.ok [0]))).2.2 =
        n + 50) :=
  claim_C9 600 0 (by decide) (by decide)
